import Mathlib

/-!
Shallow embedding of `src/hobby_circles.py` (HobbyCircles): the haversine
distance function `calculate_distance`, the application state
(`users`, `activities`), and the methods `add_user`, `find_matches` and
`post_activity`.  Methods are modelled in explicit state-passing style:
each takes the application state and returns the new state together with
the Python return value.  Coordinates and distances are exact real
numbers (the spec's numeric claims are stated over exact real
arithmetic).  Wall-clock timestamps (`datetime.now()`) are modelled as an
explicit `now : Nat` parameter, since no specified behaviour depends on
their values.
-/

namespace HobbyCircles

/-- Two-argument arctangent, the semantics of Python's `math.atan2 y x`
(C library `atan2`), written piecewise over the reals; the signed-zero
distinction of floats collapses, so `atan2 0 0 = 0`. -/
noncomputable def atan2 (y x : ℝ) : ℝ :=
  if 0 < x then Real.arctan (y / x)
  else if x < 0 then
    (if 0 ≤ y then Real.arctan (y / x) + Real.pi else Real.arctan (y / x) - Real.pi)
  else
    (if 0 < y then Real.pi / 2 else if y < 0 then -(Real.pi / 2) else 0)

/-- Python `math.radians x = x * pi / 180` (degree to radian conversion,
lines 12-15 of the source). -/
noncomputable def radians (x : ℝ) : ℝ := x * Real.pi / 180

/-- The haversine intermediate `a` of `calculate_distance` (source lines
22-23): `sin^2(dlat/2) + cos(lat1_rad) * cos(lat2_rad) * sin^2(dlon/2)`. -/
noncomputable def haversine_a (lat1 lon1 lat2 lon2 : ℝ) : ℝ :=
  Real.sin ((radians lat2 - radians lat1) / 2) ^ 2 +
    Real.cos (radians lat1) * Real.cos (radians lat2) *
      Real.sin ((radians lon2 - radians lon1) / 2) ^ 2

/-- `calculate_distance` (source lines 7-26): haversine distance on a
sphere of radius 6371.0 km, via `c = 2 * atan2 (sqrt a) (sqrt (1 - a))`.
Python's `math.sqrt` raises `ValueError` on negative input; `Real.sqrt`
is total, and the theorem `haversine_a_bounds` below shows both radicands
`a` and `1 - a` are in fact nonnegative, so the two functions agree on
every reachable input. -/
noncomputable def calculate_distance (lat1 lon1 lat2 lon2 : ℝ) : ℝ :=
  let R : ℝ := 6371.0
  let a := haversine_a lat1 lon1 lat2 lon2
  let c := 2 * atan2 (Real.sqrt a) (Real.sqrt (1 - a))
  R * c

/-- Round a real to the nearest integer, ties to even: the rounding mode
of Python's builtin `round`, over exact reals. -/
noncomputable def roundHalfEven (x : ℝ) : ℤ :=
  if x - ⌊x⌋ < 1/2 then ⌊x⌋
  else if 1/2 < x - ⌊x⌋ then ⌊x⌋ + 1
  else if Even ⌊x⌋ then ⌊x⌋ else ⌊x⌋ + 1

/-- Python `round(x, 2)` (source line 77) over exact reals: round
`100 * x` half-to-even and divide by 100. -/
noncomputable def round2 (x : ℝ) : ℝ := (roundHalfEven (100 * x) : ℝ) / 100

/-- A user record as built by `add_user` (source lines 35-42).
`join_date` abstracts the `datetime.now()` timestamp. -/
structure User where
  username : String
  lat : ℝ
  lon : ℝ
  interests : List String
  bio : String
  join_date : Nat

/-- An activity record as built by `post_activity` (source lines 89-98).
`posted_at` abstracts the `datetime.now()` timestamp; `responses` starts
empty and is never written in the modelled scope. -/
structure Activity where
  id : Nat
  username : String
  activity_type : String
  description : String
  time_slot : String
  location : String
  posted_at : Nat
  responses : List String

/-- The match dictionary appended by `find_matches` (source lines 75-81). -/
structure MatchResult where
  username : String
  distance : ℝ
  shared_interests : List String
  bio : String
  all_interests : List String

/-- The application state: `self.users` and `self.activities`
(source lines 29-31). -/
structure HobbyCirclesApp where
  users : List User
  activities : List Activity

/-- `add_user` (source lines 33-44): append a user record and return the
welcome message. -/
def HobbyCirclesApp.add_user (app : HobbyCirclesApp) (username : String) (lat lon : ℝ)
    (interests : List String) (bio : String) (now : Nat) : HobbyCirclesApp × String :=
  ({ app with users := app.users ++ [⟨username, lat, lon, interests, bio, now⟩] },
   "Welcome " ++ username ++ "! Your profile is ready.")

/-- The shared-interest computation of source line 68:
`set(current_user['interests']).intersection(set(user['interests']))`,
followed by `list(...)` on line 78.  A Python `set` of strings iterates
in an unspecified (hash-based) order; we fix the first-occurrence order
of the querying user's interest list.  Membership and emptiness of the
result agree exactly with the source's set intersection. -/
def sharedInterests (current_user user : User) : List String :=
  current_user.interests.dedup.filter (fun i => decide (i ∈ user.interests))

/-- The guard of source line 71,
`if specific_interest and specific_interest not in shared_interests`:
Python truthiness makes both `None` and the empty string fail the first
conjunct, so the candidate is skipped exactly when a non-`None`,
non-empty `specific_interest` is missing from the shared set. -/
def skipByFilter (specific_interest : Option String) (shared : List String) : Prop :=
  match specific_interest with
  | some s => ¬s = "" ∧ s ∉ shared
  | none => False

instance (si : Option String) (shared : List String) : Decidable (skipByFilter si shared) :=
  match si with
  | some s => inferInstanceAs (Decidable (¬s = "" ∧ s ∉ shared))
  | none => inferInstanceAs (Decidable False)

/-- The per-candidate loop body of `find_matches` (source lines 53-81):
skip the querying user (lines 54-55), skip when the distance exceeds the
radius (lines 64-65), skip when a truthy `specific_interest` is not
among the shared interests (lines 71-72; note Python truthiness: the
empty string counts as not provided), and emit a match when the shared
set is non-empty (lines 74-81). -/
noncomputable def candidateResult (current_user : User) (username : String) (radius_km : ℝ)
    (specific_interest : Option String) (user : User) : Option MatchResult :=
  if user.username = username then none
  else
    let distance := calculate_distance current_user.lat current_user.lon user.lat user.lon
    if distance > radius_km then none
    else
      let shared_interests := sharedInterests current_user user
      if skipByFilter specific_interest shared_interests then none
      else if shared_interests ≠ [] then
        some ⟨user.username, round2 distance, shared_interests, user.bio, user.interests⟩
      else none

/-- `find_matches` (source lines 46-85): resolve the querying user by
first match (line 48, `next(...)`), return `[]` when absent (lines
49-50), collect the per-candidate results in registry order, and stably
sort them by the (rounded) `distance` field (line 84, Python's stable
`list.sort`). -/
noncomputable def HobbyCirclesApp.find_matches (app : HobbyCirclesApp) (username : String)
    (radius_km : ℝ) (specific_interest : Option String) :
    HobbyCirclesApp × List MatchResult :=
  match app.users.find? (fun u => u.username == username) with
  | none => (app, [])
  | some current_user =>
      let found := app.users.filterMap
        (candidateResult current_user username radius_km specific_interest)
      (app, found.mergeSort (fun a b => decide (a.distance ≤ b.distance)))

/-- `post_activity` (source lines 87-100): append an activity with
`id = len(self.activities) + 1` and return that id. -/
def HobbyCirclesApp.post_activity (app : HobbyCirclesApp)
    (username activity_type description time_slot location : String) (now : Nat) :
    HobbyCirclesApp × Nat :=
  let activity : Activity :=
    ⟨app.activities.length + 1, username, activity_type, description, time_slot, location,
     now, []⟩
  ({ app with activities := app.activities ++ [activity] }, activity.id)

/-- Arguments of one `post_activity` call, for iterating the call. -/
structure PostReq where
  username : String
  activity_type : String
  description : String
  time_slot : String
  location : String
  now : Nat

/-- Run a sequence of `post_activity` calls, collecting the returned ids
in call order. -/
def postAll (app : HobbyCirclesApp) (ps : List PostReq) : HobbyCirclesApp × List Nat :=
  match ps with
  | [] => (app, [])
  | p :: rest =>
      let r1 := app.post_activity p.username p.activity_type p.description p.time_slot
        p.location p.now
      let r2 := postAll r1.1 rest
      (r2.1, r1.2 :: r2.2)

/-! Concrete data used to exercise the theorems on closed inputs.  All
sample users sit at the same coordinates, so every pairwise distance is
exactly 0 and the trigonometry evaluates in closed form. -/

/-- A sample querying user. -/
def uA : User := ⟨"A", 0, 0, ["Food"], "", 0⟩

/-- A sample candidate sharing the interest `"Food"` with `uA`. -/
def uB : User := ⟨"B", 0, 0, ["Food"], "", 0⟩

/-- A second sample candidate sharing the interest `"Food"` with `uA`. -/
def uC : User := ⟨"C", 0, 0, ["Food"], "", 0⟩

/-- The match emitted for `uB` when `uA` queries. -/
def mB : MatchResult := ⟨"B", 0, ["Food"], "", ["Food"]⟩

/-- The match emitted for `uC` when `uA` queries. -/
def mC : MatchResult := ⟨"C", 0, ["Food"], "", ["Food"]⟩

/-- A two-user registry: the querying user `uA` and candidate `uB`. -/
def app2 : HobbyCirclesApp := ⟨[uA, uB], []⟩

/-- A three-user registry: `uA` queries, `uB` and `uC` are candidates. -/
def app3 : HobbyCirclesApp := ⟨[uA, uB, uC], []⟩

/-- A one-user registry holding only `uA`. -/
def app1 : HobbyCirclesApp := ⟨[uA], []⟩

/-- The empty application state. -/
def app0 : HobbyCirclesApp := ⟨[], []⟩

/-- A sample activity-posting request. -/
def reqA : PostReq := ⟨"A", "Badminton", "Looking for a partner", "Right now", "", 0⟩

/-! Theorems. -/

/-- Product-to-square identity behind the haversine bound:
`sin² t + cos (v - t) · cos (v + t) = cos² v`. -/
theorem sin_sq_add_cos_mul_cos (v t : ℝ) :
    Real.sin t ^ 2 + Real.cos (v - t) * Real.cos (v + t) = Real.cos v ^ 2 := by
  rw [Real.cos_sub, Real.cos_add]
  linear_combination (-(Real.sin t ^ 2)) * Real.sin_sq_add_cos_sq v +
    Real.cos v ^ 2 * Real.sin_sq_add_cos_sq t

/-- The haversine intermediate is a convex combination of `sin²(Δlat/2)`
and `cos²((lat1+lat2)/2)`, with weight `sin²(Δlon/2)`. -/
theorem haversine_a_eq (lat1 lon1 lat2 lon2 : ℝ) :
    haversine_a lat1 lon1 lat2 lon2 =
      (1 - Real.sin ((radians lon2 - radians lon1) / 2) ^ 2) *
          Real.sin ((radians lat2 - radians lat1) / 2) ^ 2 +
        Real.sin ((radians lon2 - radians lon1) / 2) ^ 2 *
          Real.cos ((radians lat1 + radians lat2) / 2) ^ 2 := by
  have key := sin_sq_add_cos_mul_cos ((radians lat1 + radians lat2) / 2)
    ((radians lat2 - radians lat1) / 2)
  rw [show (radians lat1 + radians lat2) / 2 - (radians lat2 - radians lat1) / 2
        = radians lat1 by ring,
      show (radians lat1 + radians lat2) / 2 + (radians lat2 - radians lat1) / 2
        = radians lat2 by ring] at key
  simp only [haversine_a]
  linear_combination (Real.sin ((radians lon2 - radians lon1) / 2) ^ 2) * key

/-- Claim C2: for all real inputs, including coordinates outside the
valid latitude and longitude ranges, the haversine intermediate `a`
satisfies `0 ≤ a ≤ 1`.  Hence both radicands `a` and `1 - a` passed to
the square root in `calculate_distance` are nonnegative, Python's
`math.sqrt` error branch is unreachable, and `calculate_distance` is a
total real-valued function that raises no exception. -/
theorem haversine_a_bounds (lat1 lon1 lat2 lon2 : ℝ) :
    0 ≤ haversine_a lat1 lon1 lat2 lon2 ∧ haversine_a lat1 lon1 lat2 lon2 ≤ 1 := by
  rw [haversine_a_eq]
  have hs0 : (0:ℝ) ≤ Real.sin ((radians lon2 - radians lon1) / 2) ^ 2 := sq_nonneg _
  have hs1 : Real.sin ((radians lon2 - radians lon1) / 2) ^ 2 ≤ 1 := Real.sin_sq_le_one _
  have hu0 : (0:ℝ) ≤ Real.sin ((radians lat2 - radians lat1) / 2) ^ 2 := sq_nonneg _
  have hu1 : Real.sin ((radians lat2 - radians lat1) / 2) ^ 2 ≤ 1 := Real.sin_sq_le_one _
  have hc0 : (0:ℝ) ≤ Real.cos ((radians lat1 + radians lat2) / 2) ^ 2 := sq_nonneg _
  have hc1 : Real.cos ((radians lat1 + radians lat2) / 2) ^ 2 ≤ 1 := Real.cos_sq_le_one _
  constructor <;> nlinarith

/-- Claim C9: `calculate_distance` is symmetric in its two coordinate
points — exactly, over exact real arithmetic, hence in particular within
any tolerance such as `1e-9`. -/
theorem calculate_distance_symm (lat1 lon1 lat2 lon2 : ℝ) :
    calculate_distance lat1 lon1 lat2 lon2 = calculate_distance lat2 lon2 lat1 lon1 := by
  have e1 : ∀ x y : ℝ, Real.sin ((x - y) / 2) ^ 2 = Real.sin ((y - x) / 2) ^ 2 := by
    intro x y
    rw [show (x - y) / 2 = -((y - x) / 2) by ring, Real.sin_neg]
    ring
  have ha : haversine_a lat1 lon1 lat2 lon2 = haversine_a lat2 lon2 lat1 lon1 := by
    simp only [haversine_a]
    rw [e1 (radians lat2) (radians lat1), e1 (radians lon2) (radians lon1)]
    ring
  simp only [calculate_distance]
  rw [ha]

/-- The haversine intermediate vanishes for identical points. -/
theorem haversine_a_self (lat lon : ℝ) : haversine_a lat lon lat lon = 0 := by
  simp [haversine_a]

/-- `atan2 0 1 = 0` (the branch `0 < x`). -/
theorem atan2_zero_one : atan2 0 1 = 0 := by
  norm_num [atan2, Real.arctan_zero]

/-- The distance from any point to itself is exactly 0. -/
theorem calculate_distance_self (lat lon : ℝ) : calculate_distance lat lon lat lon = 0 := by
  simp [calculate_distance, haversine_a_self, atan2_zero_one]

/-- Rounding 0 to two decimals gives 0. -/
theorem round2_zero : round2 0 = 0 := by
  norm_num [round2, roundHalfEven]

/-- Inversion for the per-candidate loop body: if a candidate produced a
match, then the candidate is not the querying user, its distance is
within the radius, the emitted fields come from the candidate record,
the shared set is non-empty, and the interest filter did not fire. -/
theorem candidateResult_eq_some {cu u : User} {un : String} {r : ℝ} {si : Option String}
    {m : MatchResult} (h : candidateResult cu un r si u = some m) :
    ¬u.username = un ∧
      calculate_distance cu.lat cu.lon u.lat u.lon ≤ r ∧
      m.username = u.username ∧
      m.distance = round2 (calculate_distance cu.lat cu.lon u.lat u.lon) ∧
      m.shared_interests = sharedInterests cu u ∧
      sharedInterests cu u ≠ [] ∧
      ¬skipByFilter si (sharedInterests cu u) := by
  simp only [candidateResult] at h
  split_ifs at h with h1 h2 h3 h4
  cases Option.some_inj.mp h
  exact ⟨h1, not_lt.mp h2, rfl, rfl, rfl, h4, h3⟩

/-- Constructor for the per-candidate loop body: a candidate distinct
from the querying user, within the radius, passing the interest filter
and sharing at least one interest produces exactly the match of source
lines 75-81. -/
theorem candidateResult_eq_some_of {cu u : User} {un : String} {r : ℝ} {si : Option String}
    (h1 : ¬u.username = un)
    (h2 : calculate_distance cu.lat cu.lon u.lat u.lon ≤ r)
    (h3 : ¬skipByFilter si (sharedInterests cu u))
    (h4 : sharedInterests cu u ≠ []) :
    candidateResult cu un r si u =
      some ⟨u.username, round2 (calculate_distance cu.lat cu.lon u.lat u.lon),
        sharedInterests cu u, u.bio, u.interests⟩ := by
  simp only [candidateResult]
  rw [if_neg h1, if_neg (not_lt.mpr h2), if_neg h3, if_pos h4]

/-- A candidate strictly beyond the radius is always skipped. -/
theorem candidateResult_none_of_far {cu u : User} {un : String} {r : ℝ} {si : Option String}
    (h : calculate_distance cu.lat cu.lon u.lat u.lon > r) :
    candidateResult cu un r si u = none := by
  simp only [candidateResult]
  by_cases h1 : u.username = un
  · rw [if_pos h1]
  · rw [if_neg h1, if_pos h]

/-- A candidate not sharing a provided non-empty `specific_interest` is
always skipped. -/
theorem candidateResult_none_of_filter {cu u : User} {un : String} {r : ℝ} {s : String}
    (hs : ¬s = "") (hmem : s ∉ sharedInterests cu u) :
    candidateResult cu un r (some s) u = none := by
  simp only [candidateResult]
  by_cases h1 : u.username = un
  · rw [if_pos h1]
  · rw [if_neg h1]
    by_cases h2 : calculate_distance cu.lat cu.lon u.lat u.lon > r
    · rw [if_pos h2]
    · rw [if_neg h2,
        if_pos (show skipByFilter (some s) (sharedInterests cu u) from ⟨hs, hmem⟩)]

/-- Inversion for `find_matches` membership: every returned match comes
from the resolved querying user and some candidate in the registry. -/
theorem mem_find_matches {app : HobbyCirclesApp} {un : String} {r : ℝ} {si : Option String}
    {m : MatchResult} (h : m ∈ (app.find_matches un r si).2) :
    ∃ cu, app.users.find? (fun u => u.username == un) = some cu ∧
      ∃ u, u ∈ app.users ∧ candidateResult cu un r si u = some m := by
  unfold HobbyCirclesApp.find_matches at h
  cases hf : app.users.find? (fun u => u.username == un) with
  | none => rw [hf] at h; exact absurd h (by simp)
  | some cu =>
      rw [hf] at h
      simp only [List.mem_mergeSort] at h
      exact ⟨cu, rfl, List.mem_filterMap.mp h⟩

/-- Closed-form evaluation of `find_matches` on a two-user registry: the
first user queries and the single candidate produces a match. -/
theorem find_matches_pair_eval {app : HobbyCirclesApp} {cu u : User} {un : String} {r : ℝ}
    {si : Option String} {m : MatchResult}
    (happ : app.users = [cu, u]) (hcu : cu.username = un)
    (hm : candidateResult cu un r si u = some m) :
    (app.find_matches un r si).2 = [m] := by
  have hself : candidateResult cu un r si cu = none := by
    simp only [candidateResult]
    rw [if_pos hcu]
  unfold HobbyCirclesApp.find_matches
  rw [happ, List.find?_cons_of_pos _ (by simp [hcu])]
  simp only [List.filterMap_cons, List.filterMap_nil, hself, hm, List.mergeSort_singleton]

/-- The shared-interest set of the sample users `uA` and `uB`. -/
theorem sharedInterests_uA_uB : sharedInterests uA uB = ["Food"] := by decide

/-- The shared-interest set of the sample users `uA` and `uC`. -/
theorem sharedInterests_uA_uC : sharedInterests uA uC = ["Food"] := by decide

/-- Evaluation of the loop body on the sample candidate `uB`, for any
interest filter that does not fire. -/
theorem candidateResult_uA_uB (si : Option String)
    (hsi : ¬skipByFilter si (sharedInterests uA uB)) :
    candidateResult uA "A" (5:ℝ) si uB = some mB := by
  have h := candidateResult_eq_some_of
    (show ¬uB.username = "A" by decide)
    (show calculate_distance uA.lat uA.lon uB.lat uB.lon ≤ (5:ℝ) by
      norm_num [uA, uB, calculate_distance_self])
    hsi
    (show sharedInterests uA uB ≠ [] by decide)
  rw [h, sharedInterests_uA_uB]
  simp [uA, uB, mB, calculate_distance_self, round2_zero]

/-- Evaluation of the loop body on the sample candidate `uC`. -/
theorem candidateResult_uA_uC :
    candidateResult uA "A" (5:ℝ) none uC = some mC := by
  have h := candidateResult_eq_some_of
    (show ¬uC.username = "A" by decide)
    (show calculate_distance uA.lat uA.lon uC.lat uC.lon ≤ (5:ℝ) by
      norm_num [uA, uC, calculate_distance_self])
    (show ¬skipByFilter none (sharedInterests uA uC) by decide)
    (show sharedInterests uA uC ≠ [] by decide)
  rw [h, sharedInterests_uA_uC]
  simp [uA, uC, mC, calculate_distance_self, round2_zero]

/-- Claim C10: `find_matches` is read-only — for every application state
and every combination of arguments, the user list and the activity list
after the call are the ones from before the call. -/
theorem find_matches_readonly (app : HobbyCirclesApp) (un : String) (r : ℝ)
    (si : Option String) :
    (app.find_matches un r si).1.users = app.users ∧
      (app.find_matches un r si).1.activities = app.activities := by
  unfold HobbyCirclesApp.find_matches
  cases app.users.find? (fun u => u.username == un) <;> exact ⟨rfl, rfl⟩

/-- Claim C4: when the username matches no registered user record,
`find_matches` returns the empty sequence, for every radius and filter
argument (and, being a total function, raises no error). -/
theorem find_matches_unknown_user (app : HobbyCirclesApp) (un : String) (r : ℝ)
    (si : Option String) (h : ∀ u ∈ app.users, u.username ≠ un) :
    (app.find_matches un r si).2 = [] := by
  have hf : app.users.find? (fun u => u.username == un) = none := by
    rw [List.find?_eq_none]
    intro u hu
    simpa using h u hu
  unfold HobbyCirclesApp.find_matches
  rw [hf]

/-- Witness for claim C4: querying the unknown username `"B"` in a
registry holding only `uA` yields the empty sequence. -/
theorem find_matches_unknown_user_witness :
    (app1.find_matches "B" 5 none).2 = [] :=
  find_matches_unknown_user app1 "B" 5 none (by
    intro u hu
    have hu' : u = uA := by simpa [app1] using hu
    subst hu'
    decide)

/-- Claim C6: no returned match carries the querying username — the
querying user is never a match for themself. -/
theorem find_matches_no_self (app : HobbyCirclesApp) (un : String) (r : ℝ)
    (si : Option String) (m : MatchResult) (h : m ∈ (app.find_matches un r si).2) :
    m.username ≠ un := by
  obtain ⟨cu, -, u, -, hc⟩ := mem_find_matches h
  obtain ⟨h1, -, hm, -⟩ := candidateResult_eq_some hc
  rw [hm]
  exact h1

/-- Witness for claim C6 on the two-user registry: the returned match
`mB` does not carry the querying username `"A"`. -/
theorem find_matches_no_self_witness : mB.username ≠ "A" :=
  find_matches_no_self app2 "A" 5 none mB (by
    rw [find_matches_pair_eval (show app2.users = [uA, uB] from rfl)
      (show uA.username = "A" from rfl) (candidateResult_uA_uB none (by decide))]
    exact List.mem_singleton_self _)

/-- Claim C5: every returned match has a non-empty shared-interest set,
with or without an interest filter. -/
theorem find_matches_shared_nonempty (app : HobbyCirclesApp) (un : String) (r : ℝ)
    (si : Option String) (m : MatchResult) (h : m ∈ (app.find_matches un r si).2) :
    m.shared_interests ≠ [] := by
  obtain ⟨cu, -, u, -, hc⟩ := mem_find_matches h
  obtain ⟨-, -, -, -, hsh, hne, -⟩ := candidateResult_eq_some hc
  rw [hsh]
  exact hne

/-- Witness for claim C5 on the two-user registry: the returned match
`mB` has a non-empty shared-interest set. -/
theorem find_matches_shared_nonempty_witness : mB.shared_interests ≠ [] :=
  find_matches_shared_nonempty app2 "A" 5 none mB (by
    rw [find_matches_pair_eval (show app2.users = [uA, uB] from rfl)
      (show uA.username = "A" from rfl) (candidateResult_uA_uB none (by decide))]
    exact List.mem_singleton_self _)

/-- Counterexample to claim C1 as stated: the empty string is a provided
(non-`None`) `specific_interest`, yet because of source line 71's
truthiness check (`if specific_interest and ...`) the filter never
fires, and the query returns the match `mB` whose shared-interest set
does not contain `""`. -/
theorem find_matches_empty_filter_cex :
    (app2.find_matches "A" 5 (some "")).2 = [mB] ∧ "" ∉ mB.shared_interests :=
  ⟨find_matches_pair_eval (show app2.users = [uA, uB] from rfl)
      (show uA.username = "A" from rfl) (candidateResult_uA_uB (some "") (by decide)),
   by decide⟩

/-- Claim C1 (amended): for every provided non-`None` AND non-empty
`specific_interest` string, every returned match's shared-interest set
contains it, and every candidate whose shared-interest set does not
contain it is skipped. -/
theorem find_matches_specific_interest (app : HobbyCirclesApp) (un : String) (r : ℝ)
    (s : String) (hs : ¬s = "") :
    (∀ m ∈ (app.find_matches un r (some s)).2, s ∈ m.shared_interests) ∧
      (∀ cu u : User, s ∉ sharedInterests cu u →
        candidateResult cu un r (some s) u = none) := by
  constructor
  · intro m hm
    obtain ⟨cu, -, u, -, hc⟩ := mem_find_matches hm
    obtain ⟨-, -, -, -, hsh, -, hfil⟩ := candidateResult_eq_some hc
    rw [hsh]
    by_contra hmem
    exact hfil ⟨hs, hmem⟩
  · intro cu u hmem
    exact candidateResult_none_of_filter hs hmem

/-- Witness for the amended claim C1: filtering on `"Food"` (non-empty),
the single returned match `mB` contains `"Food"` among its shared
interests. -/
theorem find_matches_specific_interest_witness : "Food" ∈ mB.shared_interests :=
  (find_matches_specific_interest app2 "A" 5 "Food" (by decide)).1 mB (by
    rw [find_matches_pair_eval (show app2.users = [uA, uB] from rfl)
      (show uA.username = "A" from rfl) (candidateResult_uA_uB (some "Food") (by decide))]
    exact List.mem_singleton_self _)

/-- Claim C7: in the per-candidate loop of `find_matches`, a candidate
strictly beyond the radius is skipped no matter what, while a distinct
candidate whose distance is at most the radius — including exactly equal
to it — is emitted, subject only to the interest conditions. -/
theorem candidateResult_radius_boundary (cu u : User) (un : String) (r : ℝ)
    (si : Option String) :
    (calculate_distance cu.lat cu.lon u.lat u.lon > r →
      candidateResult cu un r si u = none) ∧
    (¬u.username = un → calculate_distance cu.lat cu.lon u.lat u.lon ≤ r →
      ¬skipByFilter si (sharedInterests cu u) → sharedInterests cu u ≠ [] →
      (candidateResult cu un r si u).isSome) := by
  constructor
  · exact candidateResult_none_of_far
  · intro h1 h2 h3 h4
    rw [candidateResult_eq_some_of h1 h2 h3 h4]
    rfl

/-- Witness for claim C7: at distance 0 the sample candidate is skipped
for radius `-1` (distance strictly greater) and emitted for radius `0`
(distance exactly equal to the radius: boundary inclusion). -/
theorem candidateResult_radius_boundary_witness :
    candidateResult uA "A" (-1) none uB = none ∧
      (candidateResult uA "A" 0 none uB).isSome :=
  ⟨(candidateResult_radius_boundary uA uB "A" (-1) none).1
      (by norm_num [uA, uB, calculate_distance_self]),
   (candidateResult_radius_boundary uA uB "A" 0 none).2 (by decide)
      (by norm_num [uA, uB, calculate_distance_self]) (by decide) (by decide)⟩

/-- Claim C3: `find_matches` results are sorted non-decreasingly by the
(rounded) `distance` field, and the sort is stable: two candidates
appearing in this registry order whose matches have equal distance keep
that order in the result — no secondary ranking. -/
theorem find_matches_sorted_stable (app : HobbyCirclesApp) (un : String) (r : ℝ)
    (si : Option String) :
    ((app.find_matches un r si).2).Pairwise (fun a b => a.distance ≤ b.distance) ∧
      (∀ cu u1 u2 m1 m2,
        app.users.find? (fun u => u.username == un) = some cu →
        List.Sublist [u1, u2] app.users →
        candidateResult cu un r si u1 = some m1 →
        candidateResult cu un r si u2 = some m2 →
        m1.distance = m2.distance →
        List.Sublist [m1, m2] ((app.find_matches un r si).2)) := by
  have htrans : ∀ a b c : MatchResult,
      (fun a b : MatchResult => decide (a.distance ≤ b.distance)) a b = true →
      (fun a b : MatchResult => decide (a.distance ≤ b.distance)) b c = true →
      (fun a b : MatchResult => decide (a.distance ≤ b.distance)) a c = true := by
    intro a b c hab hbc
    simp only [decide_eq_true_eq] at *
    exact le_trans hab hbc
  have htotal : ∀ a b : MatchResult,
      ((fun a b : MatchResult => decide (a.distance ≤ b.distance)) a b ||
        (fun a b : MatchResult => decide (a.distance ≤ b.distance)) b a) = true := by
    intro a b
    simp only [Bool.or_eq_true, decide_eq_true_eq]
    exact le_total _ _
  constructor
  · unfold HobbyCirclesApp.find_matches
    cases app.users.find? (fun u => u.username == un) with
    | none => simp
    | some cu =>
        have hs := List.sorted_mergeSort htrans htotal
          (app.users.filterMap (candidateResult cu un r si))
        exact hs.imp (fun h => by simpa using h)
  · intro cu u1 u2 m1 m2 hf hsub hm1 hm2 hdist
    have hsubm : List.Sublist [m1, m2] (app.users.filterMap (candidateResult cu un r si)) := by
      have h := hsub.filterMap (candidateResult cu un r si)
      simpa [List.filterMap_cons, hm1, hm2] using h
    have hpair : List.Pairwise
        (fun a b : MatchResult => (decide (a.distance ≤ b.distance)) = true) [m1, m2] := by
      simp [hdist]
    unfold HobbyCirclesApp.find_matches
    rw [hf]
    exact List.sublist_mergeSort htrans htotal hpair hsubm

/-- Witness for claim C3: in the three-user registry `uB` precedes `uC`,
their matches have equal distance 0, and the pair keeps that order in
the result. -/
theorem find_matches_sorted_stable_witness :
    List.Sublist [mB, mC] ((app3.find_matches "A" 5 none).2) :=
  (find_matches_sorted_stable app3 "A" 5 none).2 uA uB uC mB mC
    (show List.find? (fun u => u.username == "A") [uA, uB, uC] = some uA from
      List.find?_cons_of_pos _ (by decide))
    (show List.Sublist [uB, uC] [uA, uB, uC] from List.sublist_cons_self uA [uB, uC])
    (candidateResult_uA_uB none (by decide))
    candidateResult_uA_uC
    rfl

/-- The new state of one `post_activity` call: the fresh activity, with
id one more than the previous count, is appended. -/
theorem post_activity_fst (app : HobbyCirclesApp)
    (a b c d e : String) (now : Nat) :
    (app.post_activity a b c d e now).1.activities =
      app.activities ++ [⟨app.activities.length + 1, a, b, c, d, e, now, []⟩] := rfl

/-- The returned id of one `post_activity` call is the previous count
plus one. -/
theorem post_activity_snd (app : HobbyCirclesApp)
    (a b c d e : String) (now : Nat) :
    (app.post_activity a b c d e now).2 = app.activities.length + 1 := rfl

/-- Invariant behind claim C8, for an arbitrary starting board: a run of
`post_activity` calls returns the consecutive ids starting one past the
current count, and appends activities carrying exactly those ids. -/
theorem postAll_ids_aux (ps : List PostReq) (app : HobbyCirclesApp) :
    (postAll app ps).2 = List.range' (app.activities.length + 1) ps.length ∧
      ((postAll app ps).1).activities.map (fun a => a.id) =
        app.activities.map (fun a => a.id) ++
          List.range' (app.activities.length + 1) ps.length := by
  induction ps generalizing app with
  | nil => simp [postAll]
  | cons p rest ih =>
      obtain ⟨ih1, ih2⟩ := ih (app.post_activity p.username p.activity_type p.description
        p.time_slot p.location p.now).1
      have hlen : (app.post_activity p.username p.activity_type p.description
          p.time_slot p.location p.now).1.activities.length = app.activities.length + 1 := by
        rw [post_activity_fst]
        simp
      constructor
      · simp only [postAll, List.length_cons]
        rw [List.range'_succ, post_activity_snd, ih1, hlen]
      · simp only [postAll, List.length_cons]
        rw [List.range'_succ, ih2, hlen, post_activity_fst]
        simp [List.append_assoc]

/-- Claim C8: starting from an empty activity board, the i-th of k
`post_activity` calls returns id i (1-based, strictly increasing,
gap-free, never reused), and afterwards the board holds exactly k
activities whose ids in board order are 1..k. -/
theorem postAll_from_empty (app : HobbyCirclesApp) (ps : List PostReq)
    (h : app.activities = []) :
    (postAll app ps).2 = List.range' 1 ps.length ∧
      ((postAll app ps).1).activities.map (fun a => a.id) = List.range' 1 ps.length := by
  have haux := postAll_ids_aux ps app
  rw [h] at haux
  simpa using haux

/-- Witness for claim C8: three posts on the empty board return ids
`[1, 2, 3]` and leave the board with exactly those ids in order. -/
theorem postAll_from_empty_witness :
    (postAll app0 [reqA, reqA, reqA]).2 = List.range' 1 3 ∧
      ((postAll app0 [reqA, reqA, reqA]).1).activities.map (fun a => a.id) =
        List.range' 1 3 :=
  postAll_from_empty app0 [reqA, reqA, reqA] rfl

end HobbyCircles
